import Mathlib

/-!
Verification of the recongo entity-reconciliation query engine
(`model/database.go` in-memory and relational backends, `model/loader.go`,
and the dynamic SQL builder in `DatabaseSource.doQuery`).

Shallow embedding conventions:
* Go strings are modelled as `List Char` (`Str`); `len` is list length,
  `strings.ToLower` is a character-wise lowering, faithful for the ASCII
  fragment the engine's heuristics target.
* `float64` scores are modelled as `ℚ`; the score arithmetic in the source
  is plain products, quotients and comparisons, which ℚ mirrors exactly.
* The relational backend's full-text search (`entity_search`, SQLite FTS5
  `bm25`) is abstracted as an oracle list of `FtsHit` rows, in the order the
  SQL `ORDER BY score` delivers them; the row-processing loop of
  `DatabaseSource.Query` is embedded verbatim over that list.
* Go's dynamically typed `interface{}` values flowing through
  `QueryProperty.Value` are modelled by the inductive `GoValue`; a Go
  run-time panic (failed interface conversion) is the `GoRes.panicked`
  outcome, distinct from an error value returned to the caller
  (`GoRes.err`).
* Go maps (`MemorySource.entities`, keyed by entity id) are modelled as
  association lists with key-replacing insertion; iteration order of a Go
  map is unspecified, the model fixes list order as one admissible order.
-/

namespace Recongo

/-- Go string, as a list of characters. -/
abbrev Str := List Char

/-- Coercion from Lean string literals to the Go-string model. -/
def str (s : String) : Str := s.data

/-- `strings.ToLower`, character-wise (ASCII fragment). -/
def toLowerStr (s : Str) : Str := s.map Char.toLower

/-- `strings.Contains s sub`: `sub` occurs contiguously inside `s`. -/
def strContains : Str → Str → Bool
  | [], sub => sub.isEmpty
  | c :: rest, sub => sub.isPrefixOf (c :: rest) || strContains rest sub

/-- `strings.Split s ","` for a one-character separator: always returns at
least one group, splitting at every comma. -/
def splitComma : Str → List Str
  | [] => [[]]
  | c :: rest =>
    if c = ',' then [] :: splitComma rest
    else
      match splitComma rest with
      | [] => [[c]]
      | g :: gs => (c :: g) :: gs

theorem splitComma_ne_nil (s : Str) : splitComma s ≠ [] := by
  induction s with
  | nil => simp [splitComma]
  | cons c rest ih =>
    simp only [splitComma]
    split
    · simp
    · cases h : splitComma rest <;> simp

/-- Modelled from the spec (§4.1 Identifier Codec): the `EntityID` type and
its accessors are not part of `src/`; only their callers are.  Decoding
splits a composite id on the first separator `:`; an id with no separator
decodes to itself as raw key with an empty primary type. -/
def splitFirstColon : Str → Option (Str × Str)
  | [] => none
  | c :: rest =>
    if c = ':' then some ([], rest)
    else (splitFirstColon rest).map (fun p => (c :: p.1, p.2))

/-- Modelled from the spec: `rawKey(id)` — the part after the first `:`,
or the whole string when there is no separator. -/
def rawKey (id : Str) : Str :=
  match splitFirstColon id with
  | some p => p.2
  | none => id

/-- Modelled from the spec: `primaryType(id)` — the part before the first
`:`, or empty when there is no separator. -/
def primaryType (id : Str) : Str :=
  match splitFirstColon id with
  | some p => p.1
  | none => []

/-- Modelled from the spec: `compose(primaryType, rawKey)` prefixes the raw
record key with the primary type id and the separator, exactly as
`DatabaseSource.getExactIDMatches` does inline (`tid + ":" + e.ID`). -/
def compose (t k : Str) : Str := t ++ ':' :: k

/-- `model.Type`: a category of entities. -/
structure Typ where
  id : Str
  name : Str
  description : Str
  viewURL : Str
deriving DecidableEq, Repr

/-- `model.Entity`: a record in the data source (the lazily-filled
`Properties` map is never consulted by `Query` and is omitted). -/
structure Entity where
  id : Str
  name : Str
  description : Str
  types : List Typ
deriving DecidableEq, Repr

/-- `model.Candidate`: a scored search result.  `Match` is a Lean keyword,
so the field is called `matched`. -/
structure Candidate where
  id : Str
  name : Str
  types : List Typ
  score : ℚ
  matched : Bool
deriving DecidableEq, Repr

/-- Dynamically-typed Go value (`interface{}`), covering the cases the
query property filter of `DatabaseSource.doQuery` distinguishes:
a string, a JSON object (`map[string]interface{}`), the typed property
slice `[]*QueryProperty` (each element a (pid, value) pair), and any other
dynamic type (numbers, booleans, ...), which the code passes through its
`default` branch. -/
inductive GoValue where
  | vstr : Str → GoValue
  | vmap : List (Str × GoValue) → GoValue
  | propList : List (Str × GoValue) → GoValue
  | othr : GoValue

/-- `model.QueryRequest`.  `Type` is a Lean keyword; the field is `typ`. -/
structure QueryRequest where
  id : Str
  text : Str
  typ : Str
  limit : Nat
  properties : List (Str × GoValue)
  strictness : Str

/-- `model.QueryResponse`. -/
structure QueryResponse where
  id : Str
  results : List Candidate
deriving DecidableEq, Repr

/-- Outcome of a Go call that can return a value, return an error, or
panic at run time. -/
inductive GoRes (α : Type) where
  | ok : α → GoRes α
  | err : Str → GoRes α
  | panicked : GoRes α

/-! ## In-memory engine (`MemorySource`, second half of database.go) -/

/-- `model.MemorySource`: the entity map, modelled as an association list
keyed by `Entity.id` (one entry per key).  The metadata strings and the
type/property catalogs are never consulted by `Query` and are omitted. -/
structure MemorySource where
  entities : List Entity
deriving Repr

/-- Go map lookup `s.entities[k]` over the association-list model. -/
def lookupEnt (es : List Entity) (k : Str) : Option Entity :=
  es.find? (fun e => e.id == k)

/-- The per-entity heuristic score of the in-memory fuzzy path
(`MemorySource.Query`, database.go lines 545-563): 95 when the lowered id
equals the lowered query, else the recall ratio `len(low)*100/len(name)`
when the lowered name contains the lowered query; plus 10 when a type
constraint is present and the entity holds that type. -/
def memScore (qTyp low : Str) (e : Entity) : ℚ :=
  let base : ℚ :=
    if toLowerStr e.id = low then 95
    else if strContains (toLowerStr e.name) low then
      ((low.length * 100 : ℕ) : ℚ) / (e.name.length : ℚ)
    else 0
  if qTyp ≠ [] ∧ e.types.any (fun et => et.id == qTyp) then base + 10 else base

/-- `sort.Slice(res.Results, less i j := Score i > Score j)`: the Go sort is
an unstable sort; the model fixes insertion sort by non-increasing score as
one admissible result. -/
def sortCand (l : List Candidate) : List Candidate :=
  List.insertionSort (fun a b => b.score ≤ a.score) l

/-- `MemorySource.Query` (database.go lines 523-588).  Returns the response
together with the request as left after the call (the Go code mutates
`q.Limit` through the pointer). -/
def MemorySource.query (s : MemorySource) (q : QueryRequest) :
    QueryResponse × QueryRequest :=
  match lookupEnt s.entities q.text with
  | some e =>
    ({ id := q.id,
       results := [{ id := e.id, name := e.name, types := e.types,
                     score := 100, matched := true }] }, q)
  | none =>
    let low := toLowerStr q.text
    let cands := s.entities.filterMap (fun e =>
      let sc := memScore q.typ low e
      if 0 < sc then
        some { id := e.id, name := e.name, types := e.types,
               score := sc, matched := decide (80 < sc) }
      else none)
    let sorted := sortCand cands
    let limit := if q.limit = 0 then 25 else q.limit
    let results := if limit < sorted.length then sorted.take limit else sorted
    ({ id := q.id, results := results }, { q with limit := limit })

/-! ## Relational engine (`DatabaseSource`, first half of database.go) -/

/-- A row of the `recongo_entities` table (primary key `(ent_id, ent_types)`,
so the same raw `ent_id` may occur on several rows, one per comma-joined
type-list variant). -/
structure DBRow where
  ent_id : Str
  ent_name : Str
  ent_description : Str
  ent_types : Str
deriving DecidableEq, Repr

/-- A row delivered by the `entity_search` full-text query
(`SELECT ent_id, ent_name, ent_types, bm25(...) as score ... ORDER BY score`):
the oracle for the SQLite FTS5 backend, in delivery order. -/
structure FtsHit where
  ent_id : Str
  ent_name : Str
  ent_types : Str
  score : ℚ
deriving DecidableEq, Repr

/-- `model.DatabaseSource`: the entities table plus the resident type
catalog.  The Go `types` map yields the zero value for unknown ids; the
model uses a total function.  Metadata strings and the property catalog are
never consulted by `Query` and are omitted. -/
structure DatabaseSource where
  rows : List DBRow
  tmap : Str → Typ

/-- The composite id a scanned row is given (`e.ID = tid + ":" + e.ID` for
the first entry of the split type list, database.go lines 125-128 and
188-191). -/
def rowCID (r_types r_id : Str) : Str :=
  ((splitComma r_types).headD []) ++ ':' :: r_id

/-- `DatabaseSource.getExactIDMatches` (database.go lines 110-136): all
`recongo_entities` rows with the given `ent_id`, each scanned into an
`Entity` with composed id and resolved type list. -/
def DatabaseSource.getExactIDMatches (s : DatabaseSource) (id : Str) :
    List Entity :=
  (s.rows.filter (fun r => r.ent_id == id)).map (fun r =>
    { id := rowCID r.ent_types r.ent_id
      name := r.ent_name
      description := r.ent_description
      types := (splitComma r.ent_types).map s.tmap })

/-- The one-time score normalization factor of the relational fuzzy path
(database.go lines 200-207): `s1 := len(q.Text)/len(c.ID)`,
`s2 := len(q.Text)/len(c.Name)`, `if s2 > s1 then s1 = s2`,
`scoreScale = s1*100/c.Score`. -/
def scaleFor (qText cid cname : Str) (native : ℚ) : ℚ :=
  let s1 : ℚ := (qText.length : ℚ) / (cid.length : ℚ)
  let s2 : ℚ := (qText.length : ℚ) / (cname.length : ℚ)
  (max s1 s2) * 100 / native

/-- The row-processing loop of `DatabaseSource.Query` (database.go lines
178-215): type-filter each hit, compute the scale from the first surviving
hit while the running scale is 0, rescale, flag `Match` at the 80 threshold,
and stop once `q.Limit` candidates are collected (checked after append). -/
def dbLoop (tmap : Str → Typ) (qText qType : Str) (limit : Nat) :
    List FtsHit → ℚ → Nat → List Candidate
  | [], _, _ => []
  | h :: rest, scale, n =>
    let tids := splitComma h.ent_types
    let cid := rowCID h.ent_types h.ent_id
    let hitType := qType.isEmpty || tids.contains qType
    if hitType then
      let scale := if scale = 0 then scaleFor qText cid h.ent_name h.score else scale
      let sc := h.score * scale
      let c : Candidate := { id := cid, name := h.ent_name,
                             types := tids.map tmap,
                             score := sc, matched := decide (80 < sc) }
      if n + 1 = limit then [c]
      else c :: dbLoop tmap qText qType limit rest scale (n + 1)
    else dbLoop tmap qText qType limit rest scale n

/-- The hits that pass the post-hoc type filter of the row-processing loop
(`hitType` in database.go lines 187-199): every hit when no type
constraint is present, else those whose split type list contains the
requested type id. -/
def survivors (qType : Str) (hits : List FtsHit) : List FtsHit :=
  hits.filter (fun h => qType.isEmpty || (splitComma h.ent_types).contains qType)

/-- The candidate the row-processing loop forms from a surviving hit under
a given normalization factor. -/
def scaledCand (tmap : Str → Typ) (scale : ℚ) (h : FtsHit) : Candidate :=
  { id := rowCID h.ent_types h.ent_id
    name := h.ent_name
    types := (splitComma h.ent_types).map tmap
    score := h.score * scale
    matched := decide (80 < h.score * scale) }

/-- `DatabaseSource.Query` (database.go lines 139-219) on the execution
path without property constraints, over the full-text oracle `hits`.
Returns the response together with the request as left after the call
(the Go code writes the defaulted limit through the pointer first). -/
def DatabaseSource.query (s : DatabaseSource) (hits : List FtsHit)
    (q : QueryRequest) : QueryResponse × QueryRequest :=
  let q := { q with limit := if q.limit = 0 then 25 else q.limit }
  let ents := s.getExactIDMatches q.text
  if ents.isEmpty then
    ({ id := q.id, results := dbLoop s.tmap q.text q.typ q.limit hits 0 0 }, q)
  else
    ({ id := q.id,
       results := ents.map (fun e =>
         { id := e.id, name := e.name, types := e.types,
           score := 100, matched := true }) }, q)

/-! ## Dynamic property-filtered query construction
(`DatabaseSource.doQuery`, database.go lines 310-350) -/

/-- Go map lookup `px["id"]` over the association-list model of a JSON
object. -/
def lookupGV : List (Str × GoValue) → Str → Option GoValue
  | [], _ => none
  | (k, v) :: rest, key => if k == key then some v else lookupGV rest key

/-- The `entity_search_by_props` clause fragments (database.go lines
318-321). -/
def sqlQ1 : Str :=
  str "SELECT a.ent_id, a.ent_name, a.ent_types, bm25(recongo_entities_fts) as score\n\t\t\t\tFROM recongo_entities_fts a "

def sqlQ2 : Str := str "WHERE recongo_entities_fts MATCH ? "

def sqlQ3 : Str := str "ORDER BY score"

/-- The value-binding type switch of the `entity_search_by_props` builder
(database.go lines 334-342): the two bound parameters `(pd.ID, value)`
where a string value binds as-is, an embedded entity object binds its raw
key (`EntityID(px["id"].(string)).ID()` — panicking when `px["id"]` is not
a string), and any other dynamic value is passed through raw. -/
def bindArg (pid : Str) (v : GoValue) : GoRes (List GoValue) :=
  match v with
  | .vstr px => .ok [.vstr pid, .vstr px]
  | .vmap px =>
    match lookupGV px (str "id") with
    | some (.vstr sid) => .ok [.vstr pid, .vstr (rawKey sid)]
    | _ => .panicked
  | _ => .ok [.vstr pid, v]

/-- The per-constraint loop of the `entity_search_by_props` builder
(database.go lines 330-343): for constraint `i`, a fresh alias character
`string([]rune{'b' + rune(i)})`, one join fragment appended to `q1`, one
condition fragment appended to `q2`, and the two bound parameters from
`bindArg`, aborting on a binding panic. -/
def buildLoop : List (Str × GoValue) → Nat → GoRes (Str × Str × List GoValue)
  | [], _ => .ok ([], [], [])
  | (pid, v) :: rest, i =>
    let ta : Char := Char.ofNat ('b'.toNat + i)
    let j1 := str ", recongo_entity_properties " ++ [ta] ++ str " "
    let j2 := str "  AND a.ent_id=" ++ [ta] ++ str ".ent_id AND " ++ [ta] ++
      str ".prop_id=? AND " ++ [ta] ++ str ".prop_value=? "
    match bindArg pid v with
    | .ok pargs =>
      match buildLoop rest (i + 1) with
      | .ok (a1, a2, args) => .ok (j1 ++ a1, j2 ++ a2, pargs ++ args)
      | .err m => .err m
      | .panicked => .panicked
    | .err m => .err m
    | .panicked => .panicked

/-- The `entity_search_by_props` special case of `DatabaseSource.doQuery`
(database.go lines 316-347): checks the dynamic type of the property-set
argument, then assembles the SQL text and the bound-parameter list, the
search term first. -/
def buildSearchByProps (textArg propsArg : GoValue) :
    GoRes (Str × List GoValue) :=
  match propsArg with
  | .propList props =>
    match buildLoop props 0 with
    | .ok (a1, a2, args) => .ok (sqlQ1 ++ a1 ++ sqlQ2 ++ a2 ++ sqlQ3, textArg :: args)
    | .err m => .err m
    | .panicked => .panicked
  | _ => .err (str "invalid property set")

/-- Whether a dynamic value is the typed property slice
(`args[1].([]*QueryProperty)` succeeds). -/
def isPropList : GoValue → Bool
  | .propList _ => true
  | _ => false

/-- Whether binding a constraint value panics in the builder's type switch:
exactly the `map[string]interface{}` case whose `"id"` entry is absent or
not a string (`px["id"].(string)` fails). -/
def payloadPanics : GoValue → Bool
  | .vmap px =>
    match lookupGV px (str "id") with
    | some (.vstr _) => false
    | _ => true
  | _ => false

/-- The bound parameter the builder produces for a constraint value that
does not panic: a string binds as-is, an embedded entity object binds its
raw key, anything else is passed through raw (the `.othr` result for a
panicking map is never reached under `payloadPanics v = false`). -/
def resolveArg : GoValue → GoValue
  | .vstr s => .vstr s
  | .vmap px =>
    match lookupGV px (str "id") with
    | some (.vstr sid) => .vstr (rawKey sid)
    | _ => .othr
  | v => v

/-- The alias character of constraint `i`: `string([]rune{'b' + rune(i)})`. -/
def aliasChar (i : Nat) : Char := Char.ofNat ('b'.toNat + i)

/-- The join fragments the builder appends to `q1`, one per constraint,
with alias indices counting up from `i`. -/
def joinsFrom : Nat → List (Str × GoValue) → Str
  | _, [] => []
  | i, _ :: rest =>
    str ", recongo_entity_properties " ++ [aliasChar i] ++ str " " ++
      joinsFrom (i + 1) rest

/-- The condition fragments the builder appends to `q2`, one per
constraint, with alias indices counting up from `i`. -/
def condsFrom : Nat → List (Str × GoValue) → Str
  | _, [] => []
  | i, _ :: rest =>
    str "  AND a.ent_id=" ++ [aliasChar i] ++ str ".ent_id AND " ++ [aliasChar i] ++
      str ".prop_id=? AND " ++ [aliasChar i] ++ str ".prop_value=? " ++
      condsFrom (i + 1) rest

/-- The SQL text of a successful build (empty otherwise). -/
def sqlOf : GoRes (Str × List GoValue) → Str
  | .ok p => p.1
  | _ => []

/-- The bound-parameter list of a successful build (empty otherwise). -/
def argsOf : GoRes (Str × List GoValue) → List GoValue
  | .ok p => p.2
  | _ => []

/-- Whether a Go outcome is a returned error value. -/
def isErrRes {α : Type} : GoRes α → Bool
  | .err _ => true
  | _ => false

/-- `DatabaseSource.Query` including the property-constrained branch
(database.go lines 164-177): after the exact-id fast path misses, a
non-empty `q.Properties` goes through `doQuery("entity_search_by_props",
q.Text, q.Properties)`; a construction failure is returned to the caller
with no results, a panic aborts the call. -/
def DatabaseSource.queryWithProps (s : DatabaseSource) (hits : List FtsHit)
    (q : QueryRequest) : GoRes (QueryResponse × QueryRequest) :=
  let q := { q with limit := if q.limit = 0 then 25 else q.limit }
  let ents := s.getExactIDMatches q.text
  if ents.isEmpty then
    if q.properties.isEmpty then
      .ok ({ id := q.id, results := dbLoop s.tmap q.text q.typ q.limit hits 0 0 }, q)
    else
      match buildSearchByProps (.vstr q.text) (.propList q.properties) with
      | .ok _ =>
        .ok ({ id := q.id, results := dbLoop s.tmap q.text q.typ q.limit hits 0 0 }, q)
      | .err m => .err m
      | .panicked => .panicked
  else
    .ok ({ id := q.id,
           results := ents.map (fun e =>
             { id := e.id, name := e.name, types := e.types,
               score := 100, matched := true }) }, q)

/-! ## Loading (`model/loader.go` entity branch and the data4recon ETL) -/

/-- One entity record of the intermediate tab-separated format: raw key,
display name, and the raw comma-separated type-id list of column 2.
Property-definition records (pseudo-type "property") are routed to the
property catalog by the loader and never reach the entity stores; the
shared dataset here consists of entity records. -/
structure SrcRow where
  id : Str
  name : Str
  types : Str
deriving DecidableEq, Repr

/-- Go map assignment `src.entities[e.ID] = e` over the association-list
model: replace the entry with the same key, else append. -/
def upsertEnt (es : List Entity) (e : Entity) : List Entity :=
  if es.any (fun x => x.id == e.id) then
    es.map (fun x => if x.id == e.id then e else x)
  else es ++ [e]

/-- The entity branch of `model.Load` (loader.go lines 85-145): split the
type list, substitute the default type for an empty first entry, skip
property-definition records, and store the entity in the id-keyed map
(later records with the same raw key overwrite earlier ones). -/
def loadMemEntities (defaultType : Str) (tmap : Str → Typ)
    (rows : List SrcRow) : List Entity :=
  rows.foldl (fun es row =>
    let tids0 := splitComma row.types
    let tids := if tids0.headD [] = [] then defaultType :: tids0.tail else tids0
    if 1 < tids.length ∧ tids.contains (str "property") then es
    else
      upsertEnt es
        { id := row.id, name := row.name, description := [],
          types := tids.map tmap }) []

/-- The `recongo_entities` insert of the data4recon ETL (one row per
record, `ent_types` stored as the raw comma-joined column). -/
def loadDBRows (rows : List SrcRow) : List DBRow :=
  rows.map (fun r => { ent_id := r.id, ent_name := r.name,
                       ent_description := [], ent_types := r.types })

/-! ## Concrete fixtures used by counterexamples and witnesses -/

/-- A concrete type catalog: every type id resolves to a type named after
itself. -/
def fixTmap : Str → Typ :=
  fun s => { id := s, name := s, description := [], viewURL := [] }

/-- One entity record with raw key `k`, loaded under the single type `t`. -/
def fixRow : List SrcRow := [{ id := str "k", name := str "nm", types := str "t" }]

/-- The same raw key `k` loaded twice, under two different type-variants. -/
def fixRows2 : List SrcRow :=
  [{ id := str "k", name := str "n1", types := str "t1" },
   { id := str "k", name := str "n2", types := str "t2" }]

def fixMem : MemorySource := ⟨loadMemEntities (str "item") fixTmap fixRow⟩

def fixMem2 : MemorySource := ⟨loadMemEntities (str "item") fixTmap fixRows2⟩

def fixDB : DatabaseSource := ⟨loadDBRows fixRow, fixTmap⟩

def fixDB2 : DatabaseSource := ⟨loadDBRows fixRows2, fixTmap⟩

/-- A relational source with an empty entities table: the exact-id fast
path always misses. -/
def fixDBe : DatabaseSource := ⟨[], fixTmap⟩

def qExact : QueryRequest :=
  { id := str "q0", text := str "k", typ := [], limit := 0,
    properties := [], strictness := [] }

def qLimit1 : QueryRequest :=
  { id := str "q0", text := str "k", typ := [], limit := 1,
    properties := [], strictness := [] }

def qFuzzy : QueryRequest :=
  { id := str "q1", text := str "ab", typ := [], limit := 0,
    properties := [], strictness := [] }

/-- Two full-text hits in delivery order (bm25 scores ascending, both
negative). -/
def fixHit1 : FtsHit :=
  { ent_id := str "i1", ent_name := str "n1", ent_types := str "t", score := -2 }

def fixHit2 : FtsHit :=
  { ent_id := str "i2", ent_name := str "n2", ent_types := str "t", score := -1 }

def fixHits : List FtsHit := [fixHit1, fixHit2]

/-- The entity the memory loader holds for key `k` from `fixRow`. -/
def fixEntK : Entity :=
  { id := str "k", name := str "nm", description := [], types := [fixTmap (str "t")] }

/-- The fast-path candidate the in-memory engine returns for `qExact` over
`fixMem`. -/
def fixCandK : Candidate :=
  { id := str "k", name := str "nm", types := [fixTmap (str "t")],
    score := 100, matched := true }

/-! ## Identifier codec (claim C7) -/

theorem splitFirstColon_compose (T K : Str) (hT : ':' ∉ T) :
    splitFirstColon (compose T K) = some (T, K) := by
  induction T with
  | nil => simp [compose, splitFirstColon]
  | cons c rest ih =>
    have hc : ¬(c = ':') := fun h => hT (h ▸ List.mem_cons_self c rest)
    have hrest : ':' ∉ rest := fun h => hT (List.mem_cons_of_mem c h)
    show splitFirstColon (c :: (rest ++ ':' :: K)) = _
    simp only [splitFirstColon, if_neg hc]
    rw [show rest ++ ':' :: K = compose rest K from rfl, ih hrest]
    rfl

theorem splitFirstColon_eq_none (id : Str) (h : ':' ∉ id) :
    splitFirstColon id = none := by
  induction id with
  | nil => rfl
  | cons c rest ih =>
    have hc : ¬(c = ':') := fun hh => h (hh ▸ List.mem_cons_self c rest)
    simp only [splitFirstColon, if_neg hc,
      ih (fun hh => h (List.mem_cons_of_mem c hh))]
    rfl

/-- C7: for every type id `T` not containing the separator and every raw
key `K`, `rawKey (compose T K) = K` and `primaryType (compose T K) = T`;
and an id containing no separator decodes to itself as raw key with an
empty primary type. -/
theorem c7_codec_roundtrip (T K id : Str) (hT : ':' ∉ T) (hid : ':' ∉ id) :
    rawKey (compose T K) = K ∧ primaryType (compose T K) = T ∧
      rawKey id = id ∧ primaryType id = [] := by
  refine ⟨?_, ?_, ?_, ?_⟩ <;>
    simp [rawKey, primaryType, splitFirstColon_compose T K hT,
      splitFirstColon_eq_none id hid]

/-- Witness for C7 at `T = "t"`, `K = "k:x"` (a raw key may itself contain
the separator), `id = "ab"`. -/
theorem c7_witness :
    (':' ∉ str "t") ∧ (':' ∉ str "ab") ∧
      (rawKey (compose (str "t") (str "k:x")) = str "k:x" ∧
        primaryType (compose (str "t") (str "k:x")) = str "t" ∧
        rawKey (str "ab") = str "ab" ∧ primaryType (str "ab") = []) :=
  ⟨by decide, by decide,
    c7_codec_roundtrip (str "t") (str "k:x") (str "ab") (by decide) (by decide)⟩

/-! ## Frame effect on the request limit (claim C10) -/

/-- C10 counterexample: on the in-memory backend, a query whose text hits
the exact-id fast path returns before the default limit is written back,
so a request submitted with `Limit = 0` still holds 0 afterwards, not 25. -/
theorem c10_counterexample :
    qExact.limit = 0 ∧ (MemorySource.query fixMem qExact).2.limit ≠ 25 :=
  ⟨rfl, by decide⟩

/-- C10 (amended): the relational backend always writes the default limit
25 back into a request submitted with `Limit = 0` (and returns the request
otherwise unchanged); the in-memory backend does so only when the exact-id
fast path misses — on a fast-path hit the request is returned unmodified. -/
theorem c10_limit_writeback :
    (∀ (s : DatabaseSource) (hits : List FtsHit) (q : QueryRequest),
        q.limit = 0 → (s.query hits q).2 = { q with limit := 25 })
    ∧ (∀ (s : DatabaseSource) (hits : List FtsHit) (q : QueryRequest),
        q.limit ≠ 0 → (s.query hits q).2 = q)
    ∧ (∀ (s : MemorySource) (q : QueryRequest),
        q.limit = 0 → lookupEnt s.entities q.text = none →
          (s.query q).2 = { q with limit := 25 })
    ∧ (∀ (s : MemorySource) (q : QueryRequest),
        q.limit ≠ 0 → lookupEnt s.entities q.text = none →
          (s.query q).2 = q)
    ∧ (∀ (s : MemorySource) (q : QueryRequest) (e : Entity),
        lookupEnt s.entities q.text = some e → (s.query q).2 = q) := by
  refine ⟨?_, ?_, ?_, ?_, ?_⟩
  · intro s hits q hq
    unfold DatabaseSource.query
    rw [if_pos hq]
    dsimp only
    split <;> rfl
  · intro s hits q hq
    unfold DatabaseSource.query
    rw [if_neg hq]
    dsimp only
    split <;> rfl
  · intro s q hq hmiss
    unfold MemorySource.query
    rw [hmiss, if_pos hq]
  · intro s q hq hmiss
    unfold MemorySource.query
    rw [hmiss, if_neg hq]
  · intro s q e hsome
    unfold MemorySource.query
    rw [hsome]

/-- Witness for C10 (amended), first conjunct, at a concrete relational
source and a request with `Limit = 0`. -/
theorem c10_witness :
    qFuzzy.limit = 0 ∧
      (DatabaseSource.query fixDBe fixHits qFuzzy).2 = { qFuzzy with limit := 25 } :=
  ⟨rfl, c10_limit_writeback.1 fixDBe fixHits qFuzzy rfl⟩

/-! ## Exact-id fast path (claim C2) -/

/-- C2 counterexample: raw key `k` is loaded under two type-variants
(`fixRows2`), but the in-memory engine keeps only the last loaded variant
in its id-keyed entity map and its fast path returns a single candidate,
not one per type-variant. -/
theorem c2_counterexample :
    (MemorySource.query fixMem2 qLimit1).1.results.length
      ≠ (fixRows2.filter (fun r => r.id == str "k")).length := by decide

/-- C2 (amended): on an exact raw-key hit both backends short-circuit with
score-100 matched candidates, bypassing scoring and type filtering; the
relational backend returns one candidate per `(key, type-list)` row
variant, while the in-memory backend returns exactly one candidate — the
most recently loaded variant held in its id-keyed map. -/
theorem c2_fast_path (s : MemorySource) (sd : DatabaseSource)
    (hits : List FtsHit) (q : QueryRequest) (e : Entity)
    (hm : lookupEnt s.entities q.text = some e)
    (hd : sd.rows.filter (fun r => r.ent_id == q.text) ≠ []) :
    (MemorySource.query s q).1.results
        = [{ id := e.id, name := e.name, types := e.types,
             score := 100, matched := true }]
    ∧ (sd.query hits q).1.results
        = (sd.rows.filter (fun r => r.ent_id == q.text)).map (fun r =>
            { id := rowCID r.ent_types r.ent_id, name := r.ent_name,
              types := (splitComma r.ent_types).map sd.tmap,
              score := 100, matched := true }) := by
  constructor
  · unfold MemorySource.query
    rw [hm]
  · unfold DatabaseSource.query
    have hne : ¬(sd.getExactIDMatches q.text).isEmpty = true := by
      simp only [List.isEmpty_iff, DatabaseSource.getExactIDMatches]
      simpa using hd
    dsimp only
    rw [if_neg hne]
    unfold DatabaseSource.getExactIDMatches
    rw [List.map_map]
    rfl

/-- Witness for C2 (amended) at key `k` over the one-row dataset. -/
theorem c2_witness :
    lookupEnt fixMem.entities qExact.text = some fixEntK ∧
      fixDB.rows.filter (fun r => r.ent_id == qExact.text) ≠ [] ∧
      ((MemorySource.query fixMem qExact).1.results
          = [{ id := fixEntK.id, name := fixEntK.name, types := fixEntK.types,
               score := 100, matched := true }]
        ∧ (fixDB.query [] qExact).1.results
          = (fixDB.rows.filter (fun r => r.ent_id == qExact.text)).map (fun r =>
              { id := rowCID r.ent_types r.ent_id, name := r.ent_name,
                types := (splitComma r.ent_types).map fixDB.tmap,
                score := 100, matched := true })) :=
  ⟨by decide, by decide,
    c2_fast_path fixMem fixDB [] qExact fixEntK (by decide) (by decide)⟩

/-! ## Match threshold and backend equivalence (claim C1) -/

theorem dbLoop_matched (tmap : Str → Typ) (qText qType : Str) (limit : Nat) :
    ∀ (hits : List FtsHit) (scale : ℚ) (n : Nat) (c : Candidate),
      c ∈ dbLoop tmap qText qType limit hits scale n →
      c.matched = decide ((80 : ℚ) < c.score) := by
  intro hits
  induction hits with
  | nil => intro scale n c hc; simp [dbLoop] at hc
  | cons h rest ih =>
    intro scale n c hc
    rw [dbLoop] at hc
    dsimp only at hc
    split at hc
    · split at hc
      · rw [List.mem_singleton] at hc
        subst hc; rfl
      · rcases List.mem_cons.mp hc with h1 | h2
        · subst h1; rfl
        · exact ih _ _ c h2
    · exact ih _ _ c hc

theorem memQuery_matched (s : MemorySource) (q : QueryRequest) (c : Candidate)
    (hc : c ∈ (MemorySource.query s q).1.results) :
    c.matched = decide ((80 : ℚ) < c.score) := by
  unfold MemorySource.query at hc
  cases hf : lookupEnt s.entities q.text with
  | some e =>
    rw [hf] at hc
    rw [List.mem_singleton] at hc
    subst hc
    show true = decide ((80 : ℚ) < 100)
    decide
  | none =>
    rw [hf] at hc
    dsimp only at hc
    generalize (if q.limit = 0 then 25 else q.limit) = L at hc
    have hc' : c ∈ sortCand (s.entities.filterMap (fun e =>
        if 0 < memScore q.typ (toLowerStr q.text) e then
          some { id := e.id, name := e.name, types := e.types,
                 score := memScore q.typ (toLowerStr q.text) e,
                 matched := decide (80 < memScore q.typ (toLowerStr q.text) e) }
        else none)) := by
      split at hc
      · exact List.mem_of_mem_take hc
      · exact hc
    have hc'' := (List.perm_insertionSort
      (fun a b : Candidate => b.score ≤ a.score) _).mem_iff.mp hc'
    obtain ⟨e, _, hsome⟩ := List.mem_filterMap.mp hc''
    split at hsome
    · cases hsome; rfl
    · cases hsome

/-- C1 counterexample: over the same one-record dataset, the exact-key
query returns a candidate with the raw id `k` from the in-memory engine
but the composite id `t:k` from the relational engine — the two backends
are not observably equivalent. -/
theorem c1_counterexample :
    (MemorySource.query fixMem qExact).1.results
      ≠ (DatabaseSource.query fixDB [] qExact).1.results := by decide

/-- C1 (amended): both backends produce candidates of the same shape and
apply the same match threshold — every returned candidate is flagged as a
match exactly when its score strictly exceeds 80.0 — but the engines are
not observably equivalent: for the same loaded dataset and query they can
return different candidate ids (composite versus raw) and scores. -/
theorem c1_match_threshold :
    (∀ (s : MemorySource) (q : QueryRequest) (c : Candidate),
        c ∈ (MemorySource.query s q).1.results →
        (c.matched = true ↔ (80 : ℚ) < c.score))
    ∧ (∀ (s : DatabaseSource) (hits : List FtsHit) (q : QueryRequest)
        (c : Candidate),
        c ∈ (DatabaseSource.query s hits q).1.results →
        (c.matched = true ↔ (80 : ℚ) < c.score)) := by
  constructor
  · intro s q c hc
    rw [memQuery_matched s q c hc]
    exact decide_eq_true_iff
  · intro s hits q c hc
    unfold DatabaseSource.query at hc
    dsimp only at hc
    split at hc
    · rw [dbLoop_matched _ _ _ _ _ _ _ c hc]
      exact decide_eq_true_iff
    · obtain ⟨e, _, heq⟩ := List.mem_map.mp hc
      rw [← heq]
      norm_num

/-- Witness for C1 (amended), first conjunct, at the concrete fast-path
candidate for key `k`. -/
theorem c1_witness :
    fixCandK ∈ (MemorySource.query fixMem qExact).1.results ∧
      (fixCandK.matched = true ↔ (80 : ℚ) < fixCandK.score) :=
  ⟨by decide, c1_match_threshold.1 fixMem qExact fixCandK (by decide)⟩

/-! ## Result count bounded by the limit (claim C5) -/

theorem dbLoop_length (tmap : Str → Typ) (qText qType : Str) (limit : Nat) :
    ∀ (hits : List FtsHit) (scale : ℚ) (n : Nat), n < limit →
      (dbLoop tmap qText qType limit hits scale n).length + n ≤ limit := by
  intro hits
  induction hits with
  | nil => intro scale n h; simp [dbLoop]; omega
  | cons h rest ih =>
    intro scale n hlt
    rw [dbLoop]
    dsimp only
    split
    · split
      · simp only [List.length_singleton]
        omega
      · simp only [List.length_cons]
        have h2 := ih
          (if scale = 0 then
            scaleFor qText (rowCID h.ent_types h.ent_id) h.ent_name h.score
          else scale) (n + 1) (by omega)
        omega
    · exact ih _ n hlt

/-- C5 counterexample: raw key `k` sits on two type-variant rows of the
relational entities table; with `Limit = 1` the exact-id fast path still
returns both candidates, exceeding the requested limit. -/
theorem c5_counterexample :
    ¬((DatabaseSource.query fixDB2 [] qLimit1).1.results.length
        ≤ qLimit1.limit) := by decide

/-- C5 (amended): the in-memory backend always returns at most
`request.Limit` candidates (25 when the limit is 0), and so does the
relational backend whenever the exact-id fast path misses; the relational
fast path, however, returns one candidate per matching type-variant row
regardless of the limit. -/
theorem c5_limit :
    (∀ (s : MemorySource) (q : QueryRequest),
        (MemorySource.query s q).1.results.length
          ≤ (if q.limit = 0 then 25 else q.limit))
    ∧ (∀ (sd : DatabaseSource) (hits : List FtsHit) (q : QueryRequest),
        sd.rows.filter (fun r => r.ent_id == q.text) = [] →
        (sd.query hits q).1.results.length
          ≤ (if q.limit = 0 then 25 else q.limit)) := by
  constructor
  · intro s q
    unfold MemorySource.query
    cases hf : lookupEnt s.entities q.text with
    | some e =>
      dsimp only [List.length_singleton]
      split <;> omega
    | none =>
      dsimp only
      generalize (if q.limit = 0 then 25 else q.limit) = L
      split
      · rw [List.length_take]
        omega
      · omega
  · intro sd hits q hd
    unfold DatabaseSource.query
    have hemp : (sd.getExactIDMatches q.text).isEmpty = true := by
      simp only [List.isEmpty_iff, DatabaseSource.getExactIDMatches]
      simp [hd]
    dsimp only
    rw [if_pos hemp]
    dsimp only
    have := dbLoop_length sd.tmap q.text q.typ
      (if q.limit = 0 then 25 else q.limit) hits 0 0 (by split <;> omega)
    omega

/-- Witness for C5 (amended), second conjunct, over the empty relational
table (fast path misses) and the two-hit oracle. -/
theorem c5_witness :
    fixDBe.rows.filter (fun r => r.ent_id == qFuzzy.text) = [] ∧
      (DatabaseSource.query fixDBe fixHits qFuzzy).1.results.length
        ≤ (if qFuzzy.limit = 0 then 25 else qFuzzy.limit) :=
  ⟨rfl, c5_limit.2 fixDBe fixHits qFuzzy rfl⟩

/-! ## Error handling of malformed property constraints (claim C9) -/

theorem bindArg_eq (pid : Str) (v : GoValue) :
    bindArg pid v =
      if payloadPanics v then .panicked else .ok [.vstr pid, resolveArg v] := by
  cases v with
  | vstr s => rfl
  | vmap px =>
    simp only [bindArg, payloadPanics, resolveArg]
    cases hl : lookupGV px (str "id") with
    | none => simp [hl]
    | some gv => cases gv <;> simp [hl]
  | propList l => rfl
  | othr => rfl

theorem buildLoop_panics :
    ∀ (props : List (Str × GoValue)) (i : Nat),
      (∃ p ∈ props, payloadPanics p.2 = true) → buildLoop props i = .panicked := by
  intro props
  induction props with
  | nil =>
    intro i h
    obtain ⟨p, hp, -⟩ := h
    cases hp
  | cons p rest ih =>
    intro i h
    obtain ⟨pid, v⟩ := p
    rw [buildLoop]
    rw [bindArg_eq]
    rcases h with ⟨pp, hpp, hbad⟩
    rcases List.mem_cons.mp hpp with rfl | hmem
    · have hbad' : payloadPanics v = true := hbad
      rw [if_pos hbad']
    · cases hb : payloadPanics v with
      | true => rfl
      | false =>
        rw [ih (i + 1) ⟨pp, hmem, hbad⟩]
        rfl

/-- Fast-path-missing query carrying one property constraint whose value
is an embedded object without an `"id"` entry. -/
def qPanic : QueryRequest :=
  { id := str "q9", text := str "x", typ := [], limit := 0,
    properties := [(str "p", GoValue.vmap [])], strictness := [] }

/-- C9 counterexample: a query whose single property constraint carries an
embedded object with no string `"id"` makes the filter construction panic
(`px["id"].(string)` fails); no error value is returned to the caller. -/
theorem c9_counterexample :
    DatabaseSource.queryWithProps fixDBe [] qPanic = .panicked ∧
      isErrRes (DatabaseSource.queryWithProps fixDBe [] qPanic) = false :=
  ⟨rfl, rfl⟩

/-- C9 (amended): during property-filter construction, a property-set
argument that is not the typed property slice yields the descriptive error
"invalid property set" with no results; but a constraint whose embedded
structured value lacks a string `"id"` aborts the query with a run-time
panic (failed interface conversion), not an error returned to the caller —
in either case no partial results are produced. -/
theorem c9_malformed_properties :
    (∀ (s : DatabaseSource) (hits : List FtsHit) (q : QueryRequest),
        s.rows.filter (fun r => r.ent_id == q.text) = [] →
        q.properties ≠ [] →
        (∃ p ∈ q.properties, payloadPanics p.2 = true) →
        s.queryWithProps hits q = .panicked)
    ∧ (∀ (textArg propsArg : GoValue), isPropList propsArg = false →
        buildSearchByProps textArg propsArg = .err (str "invalid property set")) := by
  constructor
  · intro s hits q hfast hne hbad
    unfold DatabaseSource.queryWithProps
    dsimp only
    have hemp : (s.getExactIDMatches q.text).isEmpty = true := by
      simp only [List.isEmpty_iff, DatabaseSource.getExactIDMatches]
      simp [hfast]
    rw [if_pos hemp]
    have hpe : ¬(q.properties.isEmpty = true) := by
      simpa [List.isEmpty_iff] using hne
    rw [if_neg hpe]
    unfold buildSearchByProps
    dsimp only
    rw [buildLoop_panics q.properties 0 hbad]
  · intro textArg propsArg hp
    cases propsArg with
    | propList l => simp [isPropList] at hp
    | vstr s => rfl
    | vmap px => rfl
    | othr => rfl

/-- Witness for C9 (amended), first conjunct, at the concrete panicking
request. -/
theorem c9_witness :
    fixDBe.rows.filter (fun r => r.ent_id == qPanic.text) = [] ∧
      qPanic.properties ≠ [] ∧
      (∃ p ∈ qPanic.properties, payloadPanics p.2 = true) ∧
      DatabaseSource.queryWithProps fixDBe [] qPanic = .panicked :=
  ⟨rfl, by simp [qPanic], ⟨(str "p", GoValue.vmap []), by simp [qPanic], rfl⟩,
    c9_malformed_properties.1 fixDBe [] qPanic rfl (by simp [qPanic])
      ⟨(str "p", GoValue.vmap []), by simp [qPanic], rfl⟩⟩

/-! ## In-memory fuzzy scoring (claim C3) -/

theorem filterMap_ite_eq {α β : Type} (f : α → ℚ) (g : α → β) (l : List α) :
    (l.filterMap fun e => if 0 < f e then some (g e) else none)
      = (l.filter (fun e => decide (0 < f e))).map g := by
  induction l with
  | nil => rfl
  | cons a l ih =>
    by_cases h : 0 < f a
    · simp [h, ih]
    · simp [h, ih]

/-- C3: on the in-memory fuzzy path (exact-id lookup empty) the response
is exactly the entities with positive heuristic score, mapped to
candidates carrying that score, sorted by non-increasing score and
truncated to the limit (25 when 0); and the score decomposes as the claim
states: 95 on a case-insensitive raw-id match, else the length ratio
`len(query)*100/len(name)` on a case-insensitive name containment, else 0,
plus a bonus of 10 when a type constraint is present and the entity holds
that type. -/
theorem c3_memory_fuzzy_scoring (s : MemorySource) (q : QueryRequest)
    (hmiss : lookupEnt s.entities q.text = none) :
    ((MemorySource.query s q).1.results
      = (sortCand ((s.entities.filter
            (fun e => decide (0 < memScore q.typ (toLowerStr q.text) e))).map
          (fun e => { id := e.id, name := e.name, types := e.types,
                      score := memScore q.typ (toLowerStr q.text) e,
                      matched := decide (80 < memScore q.typ (toLowerStr q.text) e) }))).take
          (if q.limit = 0 then 25 else q.limit))
    ∧ (∀ e : Entity, memScore q.typ (toLowerStr q.text) e
        = (if toLowerStr e.id = toLowerStr q.text then (95 : ℚ)
           else if strContains (toLowerStr e.name) (toLowerStr q.text) then
             (((toLowerStr q.text).length * 100 : ℕ) : ℚ) / (e.name.length : ℚ)
           else 0)
          + (if q.typ ≠ [] ∧ e.types.any (fun et => et.id == q.typ) then 10 else 0)) := by
  constructor
  · unfold MemorySource.query
    rw [hmiss]
    dsimp only
    have heq : (s.entities.filterMap fun e =>
        if 0 < memScore q.typ (toLowerStr q.text) e then
          some ({ id := e.id, name := e.name, types := e.types,
                  score := memScore q.typ (toLowerStr q.text) e,
                  matched := decide (80 < memScore q.typ (toLowerStr q.text) e) } : Candidate)
        else none)
        = (s.entities.filter (fun e => decide (0 < memScore q.typ (toLowerStr q.text) e))).map
            (fun e => { id := e.id, name := e.name, types := e.types,
                        score := memScore q.typ (toLowerStr q.text) e,
                        matched := decide (80 < memScore q.typ (toLowerStr q.text) e) }) :=
      filterMap_ite_eq _ _ _
    rw [heq]
    generalize (if q.limit = 0 then 25 else q.limit) = L
    split
    · rfl
    · next h => rw [List.take_of_length_le (Nat.le_of_not_lt h)]
  · intro e
    unfold memScore
    dsimp only
    by_cases hb : q.typ ≠ [] ∧ e.types.any (fun et => et.id == q.typ)
    · rw [if_pos hb, if_pos hb]
    · rw [if_neg hb, if_neg hb, add_zero]

/-- Witness for C3 at the text `ab` (not a key of `fixMem`, so the fast
path misses). -/
theorem c3_witness :
    lookupEnt fixMem.entities qFuzzy.text = none ∧
      (MemorySource.query fixMem qFuzzy).1.results
        = (sortCand ((fixMem.entities.filter
              (fun e => decide (0 < memScore qFuzzy.typ (toLowerStr qFuzzy.text) e))).map
            (fun e => { id := e.id, name := e.name, types := e.types,
                        score := memScore qFuzzy.typ (toLowerStr qFuzzy.text) e,
                        matched := decide (80 < memScore qFuzzy.typ (toLowerStr qFuzzy.text) e) }))).take
            (if qFuzzy.limit = 0 then 25 else qFuzzy.limit) :=
  ⟨by decide, (c3_memory_fuzzy_scoring fixMem qFuzzy (by decide)).1⟩

/-! ## Relational fuzzy-path normalization (claim C4) -/

theorem survivors_cons_pos (qType : Str) (h : FtsHit) (rest : List FtsHit)
    (hp : (qType.isEmpty || (splitComma h.ent_types).contains qType) = true) :
    survivors qType (h :: rest) = h :: survivors qType rest := by
  simp only [survivors, List.filter_cons, if_pos hp]

theorem survivors_cons_neg (qType : Str) (h : FtsHit) (rest : List FtsHit)
    (hp : ¬((qType.isEmpty || (splitComma h.ent_types).contains qType) = true)) :
    survivors qType (h :: rest) = survivors qType rest := by
  simp only [survivors, List.filter_cons, if_neg hp]

theorem dbLoop_const_scale (tmap : Str → Typ) (qText qType : Str) (limit : Nat)
    (scale : ℚ) (hs : scale ≠ 0) :
    ∀ (hits : List FtsHit) (n : Nat), n < limit →
      dbLoop tmap qText qType limit hits scale n
        = ((survivors qType hits).map (scaledCand tmap scale)).take (limit - n) := by
  intro hits
  induction hits with
  | nil => intro n hn; simp [dbLoop, survivors]
  | cons h rest ih =>
    intro n hn
    rw [dbLoop]
    dsimp only
    by_cases hp : (qType.isEmpty || (splitComma h.ent_types).contains qType) = true
    · rw [if_pos hp, if_neg hs, survivors_cons_pos _ _ _ hp]
      by_cases hlim : n + 1 = limit
      · rw [if_pos hlim]
        have h1 : limit - n = 1 := by omega
        rw [h1, List.map_cons, List.take_succ_cons, List.take_zero]
        rfl
      · rw [if_neg hlim, ih (n + 1) (by omega)]
        have h1 : limit - n = (limit - (n + 1)) + 1 := by omega
        rw [h1, List.map_cons, List.take_succ_cons]
        rfl
    · rw [if_neg hp, survivors_cons_neg _ _ _ hp]
      exact ih n hn

theorem scaleFor_nil (cid cname : Str) (native : ℚ) :
    scaleFor [] cid cname native = 0 := by
  simp [scaleFor]

theorem dbLoop_zero_text (tmap : Str → Typ) (qType : Str) (limit : Nat) :
    ∀ (hits : List FtsHit) (n : Nat), n < limit →
      dbLoop tmap [] qType limit hits 0 n
        = ((survivors qType hits).map (scaledCand tmap 0)).take (limit - n) := by
  intro hits
  induction hits with
  | nil => intro n hn; simp [dbLoop, survivors]
  | cons h rest ih =>
    intro n hn
    rw [dbLoop]
    dsimp only
    by_cases hp : (qType.isEmpty || (splitComma h.ent_types).contains qType) = true
    · rw [if_pos hp, if_pos rfl, scaleFor_nil, survivors_cons_pos _ _ _ hp]
      by_cases hlim : n + 1 = limit
      · rw [if_pos hlim]
        have h1 : limit - n = 1 := by omega
        rw [h1, List.map_cons, List.take_succ_cons, List.take_zero]
        rfl
      · rw [if_neg hlim, ih (n + 1) (by omega)]
        have h1 : limit - n = (limit - (n + 1)) + 1 := by omega
        rw [h1, List.map_cons, List.take_succ_cons]
        rfl
    · rw [if_neg hp, survivors_cons_neg _ _ _ hp]
      exact ih n hn

theorem dbLoop_first_scale (tmap : Str → Typ) (qText qType : Str) (limit : Nat)
    (h₀ : FtsHit) (rest : List FtsHit)
    (hsc : scaleFor qText (rowCID h₀.ent_types h₀.ent_id) h₀.ent_name h₀.score ≠ 0) :
    ∀ (hits : List FtsHit) (n : Nat), survivors qType hits = h₀ :: rest →
      n < limit →
      dbLoop tmap qText qType limit hits 0 n
        = ((h₀ :: rest).map (scaledCand tmap
            (scaleFor qText (rowCID h₀.ent_types h₀.ent_id) h₀.ent_name h₀.score))).take
          (limit - n) := by
  intro hits
  induction hits with
  | nil => intro n hs hn; simp [survivors] at hs
  | cons h hits' ih =>
    intro n hs hn
    by_cases hp : (qType.isEmpty || (splitComma h.ent_types).contains qType) = true
    · rw [survivors_cons_pos _ _ _ hp] at hs
      obtain ⟨rfl, hrest⟩ : h = h₀ ∧ survivors qType hits' = rest := by
        cases hs; exact ⟨rfl, rfl⟩
      rw [dbLoop]
      dsimp only
      rw [if_pos hp, if_pos rfl]
      by_cases hlim : n + 1 = limit
      · rw [if_pos hlim]
        have h1 : limit - n = 1 := by omega
        rw [h1, List.map_cons, List.take_succ_cons, List.take_zero]
        rfl
      · rw [if_neg hlim,
          dbLoop_const_scale tmap qText qType limit _ hsc hits' (n + 1) (by omega),
          hrest]
        have h1 : limit - n = (limit - (n + 1)) + 1 := by omega
        rw [h1, List.map_cons, List.take_succ_cons]
        rfl
    · rw [survivors_cons_neg _ _ _ hp] at hs
      rw [dbLoop]
      dsimp only
      rw [if_neg hp]
      exact ih n hs hn

theorem rowCID_length_pos (r_types r_id : Str) : 0 < (rowCID r_types r_id).length := by
  simp [rowCID]

/-- C4: on the relational fuzzy path, the normalization factor is
`max(len(query)/len(candidateID), len(query)/len(candidateName)) * 100 /
nativeScore` of the first hit surviving the type filter, and every
returned candidate's score is that hit-independent factor times its own
native score (up to the limit).  The hypothesis `h₀.score ≠ 0` reflects
the bm25 oracle: SQLite returns a nonzero (negative) score for a match. -/
theorem c4_db_scale_once (s : DatabaseSource) (hits : List FtsHit)
    (q : QueryRequest)
    (hfast : s.rows.filter (fun r => r.ent_id == q.text) = [])
    (h₀ : FtsHit) (rest : List FtsHit)
    (hs : survivors q.typ hits = h₀ :: rest) (hn0 : h₀.score ≠ 0) :
    ((DatabaseSource.query s hits q).1.results
        = ((h₀ :: rest).map (scaledCand s.tmap
            (scaleFor q.text (rowCID h₀.ent_types h₀.ent_id) h₀.ent_name h₀.score))).take
          (if q.limit = 0 then 25 else q.limit))
    ∧ scaleFor q.text (rowCID h₀.ent_types h₀.ent_id) h₀.ent_name h₀.score
        = max ((q.text.length : ℚ) / ((rowCID h₀.ent_types h₀.ent_id).length : ℚ))
            ((q.text.length : ℚ) / (h₀.ent_name.length : ℚ)) * 100 / h₀.score := by
  constructor
  · unfold DatabaseSource.query
    have hemp : (s.getExactIDMatches q.text).isEmpty = true := by
      simp only [List.isEmpty_iff, DatabaseSource.getExactIDMatches]
      simp [hfast]
    dsimp only
    rw [if_pos hemp]
    dsimp only
    have hlim : 0 < (if q.limit = 0 then 25 else q.limit) := by split <;> omega
    by_cases ht : q.text = []
    · rw [ht, scaleFor_nil, dbLoop_zero_text s.tmap q.typ _ hits 0 hlim, hs]
      simp
    · have hsc : scaleFor q.text (rowCID h₀.ent_types h₀.ent_id) h₀.ent_name h₀.score ≠ 0 := by
        unfold scaleFor
        dsimp only
        have hcl : (0 : ℚ) < ((rowCID h₀.ent_types h₀.ent_id).length : ℚ) := by
          exact_mod_cast rowCID_length_pos h₀.ent_types h₀.ent_id
        have htl : (0 : ℚ) < (q.text.length : ℚ) := by
          exact_mod_cast List.length_pos.mpr ht
        have hs1 : 0 < (q.text.length : ℚ) / ((rowCID h₀.ent_types h₀.ent_id).length : ℚ) :=
          div_pos htl hcl
        have hmax : 0 < max ((q.text.length : ℚ) / ((rowCID h₀.ent_types h₀.ent_id).length : ℚ))
            ((q.text.length : ℚ) / (h₀.ent_name.length : ℚ)) :=
          lt_of_lt_of_le hs1 (le_max_left _ _)
        intro heq
        rcases div_eq_zero_iff.mp heq with h1 | h2
        · rcases mul_eq_zero.mp h1 with h3 | h4
          · exact absurd h3 (ne_of_gt hmax)
          · norm_num at h4
        · exact hn0 h2
      rw [dbLoop_first_scale s.tmap q.text q.typ _ h₀ rest hsc hits 0 hs hlim]
      simp
  · unfold scaleFor
    rfl

/-- Witness for C4 over the empty table (fast path misses) and the
two-hit oracle: the first hit fixes the scale, the second is rescaled by
the same factor. -/
theorem c4_witness :
    fixDBe.rows.filter (fun r => r.ent_id == qFuzzy.text) = [] ∧
      survivors qFuzzy.typ fixHits = fixHit1 :: [fixHit2] ∧
      fixHit1.score ≠ 0 ∧
      (DatabaseSource.query fixDBe fixHits qFuzzy).1.results
        = ((fixHit1 :: [fixHit2]).map (scaledCand fixDBe.tmap
            (scaleFor qFuzzy.text (rowCID fixHit1.ent_types fixHit1.ent_id)
              fixHit1.ent_name fixHit1.score))).take
          (if qFuzzy.limit = 0 then 25 else qFuzzy.limit) :=
  ⟨rfl, by decide, by decide,
    (c4_db_scale_once fixDBe fixHits qFuzzy rfl fixHit1 [fixHit2]
      (by decide) (by decide)).1⟩

/-! ## Result ordering (claim C6) -/

theorem sortCand_sorted (l : List Candidate) :
    (sortCand l).Pairwise (fun a b => b.score ≤ a.score) := by
  haveI h1 : IsTotal Candidate (fun a b => b.score ≤ a.score) :=
    ⟨fun a b => le_total b.score a.score⟩
  haveI h2 : IsTrans Candidate (fun a b => b.score ≤ a.score) :=
    ⟨fun a b c hab hbc => le_trans hbc hab⟩
  exact List.sorted_insertionSort _ l

theorem dbLoop_nil_survivors (tmap : Str → Typ) (qText qType : Str) (limit : Nat) :
    ∀ (hits : List FtsHit) (scale : ℚ) (n : Nat), survivors qType hits = [] →
      dbLoop tmap qText qType limit hits scale n = [] := by
  intro hits
  induction hits with
  | nil => intro scale n _; rfl
  | cons h rest ih =>
    intro scale n hs
    by_cases hp : (qType.isEmpty || (splitComma h.ent_types).contains qType) = true
    · rw [survivors_cons_pos _ _ _ hp] at hs
      cases hs
    · rw [survivors_cons_neg _ _ _ hp] at hs
      rw [dbLoop]
      dsimp only
      rw [if_neg hp]
      exact ih scale n hs

theorem scaleFor_neg (qText : Str) (h₀ : FtsHit) (ht : qText ≠ [])
    (hneg : h₀.score < 0) :
    scaleFor qText (rowCID h₀.ent_types h₀.ent_id) h₀.ent_name h₀.score < 0 := by
  unfold scaleFor
  dsimp only
  have hcl : (0 : ℚ) < ((rowCID h₀.ent_types h₀.ent_id).length : ℚ) := by
    exact_mod_cast rowCID_length_pos h₀.ent_types h₀.ent_id
  have htl : (0 : ℚ) < (qText.length : ℚ) := by
    exact_mod_cast List.length_pos.mpr ht
  have hs1 : 0 < (qText.length : ℚ) / ((rowCID h₀.ent_types h₀.ent_id).length : ℚ) :=
    div_pos htl hcl
  have hmax : 0 < max ((qText.length : ℚ) / ((rowCID h₀.ent_types h₀.ent_id).length : ℚ))
      ((qText.length : ℚ) / (h₀.ent_name.length : ℚ)) :=
    lt_of_lt_of_le hs1 (le_max_left _ _)
  exact div_neg_of_pos_of_neg (mul_pos hmax (by norm_num)) hneg

/-- C6: the response list is sorted by non-increasing score on both
backends.  The relational hypotheses reflect the SQL contract of the
fuzzy query (`ORDER BY score` over bm25 values): the oracle delivers hits
in ascending native order, all native scores negative. -/
theorem c6_results_sorted :
    (∀ (s : MemorySource) (q : QueryRequest),
        ((MemorySource.query s q).1.results).Pairwise (fun a b => b.score ≤ a.score))
    ∧ (∀ (s : DatabaseSource) (hits : List FtsHit) (q : QueryRequest),
        hits.Pairwise (fun a b => a.score ≤ b.score) →
        (∀ h ∈ hits, h.score < 0) →
        ((DatabaseSource.query s hits q).1.results).Pairwise
          (fun a b => b.score ≤ a.score)) := by
  constructor
  · intro s q
    unfold MemorySource.query
    cases hf : lookupEnt s.entities q.text with
    | some e =>
      dsimp only
      exact List.pairwise_singleton _ _
    | none =>
      dsimp only
      generalize (if q.limit = 0 then 25 else q.limit) = L
      split
      · exact List.Pairwise.sublist (List.take_sublist _ _) (sortCand_sorted _)
      · exact sortCand_sorted _
  · intro s hits q hasc hneg
    unfold DatabaseSource.query
    dsimp only
    split
    · have hlim : 0 < (if q.limit = 0 then 25 else q.limit) := by split <;> omega
      by_cases ht : q.text = []
      · rw [ht, dbLoop_zero_text s.tmap q.typ _ hits 0 hlim]
        apply List.Pairwise.sublist (List.take_sublist _ _)
        apply List.pairwise_map.mpr
        refine List.pairwise_iff_forall_sublist.mpr ?_
        intro a b _
        simp [scaledCand]
      · cases hsv : survivors q.typ hits with
        | nil =>
          rw [dbLoop_nil_survivors s.tmap q.text q.typ _ hits 0 0 hsv]
          exact List.Pairwise.nil
        | cons h₀ rest =>
          have hmem : h₀ ∈ hits := by
            have : h₀ ∈ survivors q.typ hits := by
              rw [hsv]; exact List.mem_cons_self _ _
            exact List.mem_of_mem_filter this
          have hsneg := scaleFor_neg q.text h₀ ht (hneg h₀ hmem)
          rw [dbLoop_first_scale s.tmap q.text q.typ _ h₀ rest (ne_of_lt hsneg)
            hits 0 hsv hlim]
          apply List.Pairwise.sublist (List.take_sublist _ _)
          apply List.pairwise_map.mpr
          have hsorted : (h₀ :: rest).Pairwise (fun a b : FtsHit => a.score ≤ b.score) := by
            rw [← hsv]
            exact List.Pairwise.filter _ hasc
          refine hsorted.imp ?_
          intro a b hab
          exact mul_le_mul_of_nonpos_right hab (le_of_lt hsneg)
    · refine List.pairwise_iff_forall_sublist.mpr ?_
      intro a b hsub
      have ha := hsub.subset (List.mem_cons_self a [b])
      have hb := hsub.subset (List.mem_cons_of_mem a (List.mem_cons_self b []))
      obtain ⟨ea, -, rfl⟩ := List.mem_map.mp ha
      obtain ⟨eb, -, rfl⟩ := List.mem_map.mp hb
      show (100 : ℚ) ≤ 100
      exact le_refl _

/-- Witness for C6, second conjunct, at the concrete two-hit oracle with
ascending negative native scores. -/
theorem c6_witness :
    fixHits.Pairwise (fun a b => a.score ≤ b.score) ∧
      (∀ h ∈ fixHits, h.score < 0) ∧
      ((DatabaseSource.query fixDBe fixHits qFuzzy).1.results).Pairwise
        (fun a b => b.score ≤ a.score) :=
  ⟨by decide, by decide,
    c6_results_sorted.2 fixDBe fixHits qFuzzy (by decide) (by decide)⟩

/-! ## Dynamic SQL construction for property constraints (claim C8) -/

theorem buildLoop_ok :
    ∀ (props : List (Str × GoValue)) (i : Nat),
      (∀ p ∈ props, payloadPanics p.2 = false) →
      buildLoop props i
        = .ok (joinsFrom i props, condsFrom i props,
            props.flatMap (fun p => [.vstr p.1, resolveArg p.2])) := by
  intro props
  induction props with
  | nil => intro i _; rfl
  | cons p rest ih =>
    intro i h
    obtain ⟨pid, v⟩ := p
    rw [buildLoop, bindArg_eq]
    have hv : payloadPanics v = false := h (pid, v) (List.mem_cons_self _ _)
    rw [if_neg (by simp [hv])]
    rw [ih (i + 1) (fun p hp => h p (List.mem_cons_of_mem _ hp))]
    rfl

/-- 26 one-string property constraints. -/
def cex8props : List (Str × GoValue) :=
  List.replicate 26 (str "p", GoValue.vstr (str "v"))

set_option maxRecDepth 40000 in
/-- C8 counterexample: with 26 property constraints the alias generated
for the last one is `'b' + 25`, code point 123 (`{`), which is not a
letter; it appears verbatim in the built SQL text. -/
theorem c8_counterexample :
    Char.ofNat 123 ∈ sqlOf (buildSearchByProps (.vstr (str "x")) (.propList cex8props))
      ∧ (Char.ofNat 123).isAlpha = false := by
  constructor
  · decide
  · decide

/-- C8 (amended): for a query with property constraints (each constraint
payload binding without a panic), the builder emits one join and one
condition fragment per constraint under the deterministic alias `'b' + i`,
compares entity-valued constraints by the referenced entity's raw key
(`resolveArg`), and binds parameters in exactly clause-emission order: the
search term first, then one (property id, property value) pair per
constraint in iteration order; the generated aliases are sequential
letters, pairwise distinct, only for up to 25 constraints (`'b' + i` stays
a letter exactly while `i < 25`). -/
theorem c8_props_query_build (text : Str) (props : List (Str × GoValue))
    (hok : ∀ p ∈ props, payloadPanics p.2 = false) :
    (buildSearchByProps (.vstr text) (.propList props)
        = .ok (sqlQ1 ++ joinsFrom 0 props ++ sqlQ2 ++ condsFrom 0 props ++ sqlQ3,
            .vstr text :: props.flatMap (fun p => [.vstr p.1, resolveArg p.2])))
    ∧ (∀ i < 25, (aliasChar i).isAlpha = true)
    ∧ (∀ i < 25, ∀ j < 25, i ≠ j → aliasChar i ≠ aliasChar j) := by
  refine ⟨?_, by decide, by decide⟩
  unfold buildSearchByProps
  dsimp only
  rw [buildLoop_ok props 0 hok]

/-- Two well-formed constraints: a plain string value and an embedded
entity reference whose composite id is `t:x` (so its raw key `x` is what
gets bound). -/
def fixProps : List (Str × GoValue) :=
  [(str "p1", GoValue.vstr (str "v1")),
   (str "p2", GoValue.vmap [(str "id", GoValue.vstr (str "t:x"))])]

/-- Witness for C8 (amended) at the two-constraint property set. -/
theorem c8_witness :
    (∀ p ∈ fixProps, payloadPanics p.2 = false) ∧
      buildSearchByProps (.vstr (str "ab")) (.propList fixProps)
        = .ok (sqlQ1 ++ joinsFrom 0 fixProps ++ sqlQ2 ++ condsFrom 0 fixProps ++ sqlQ3,
            .vstr (str "ab") :: fixProps.flatMap (fun p => [.vstr p.1, resolveArg p.2])) :=
  ⟨by decide, (c8_props_query_build (str "ab") fixProps (by decide)).1⟩

end Recongo
